import Mathlib

/-!
Shallow embedding of the inventory recalculation core of
`src/app.py` (Streamlit inventory app, "V3-Full" variant).

The embedded functions follow the source:
* `safe_float` (app.py:83-90)  — safe numeric parse, failures become 0
* `safe_str`   (app.py:92-96)  — str + strip
* `recalculate_inventory` (app.py:267-335) — the ledger reducer:
  per SKU, fold the ledger entries in order, maintaining
  `total_qty`, `total_val` (the cost basis) and a per-warehouse
  dict `w_stock`; inbound doc types add quantity (and cost only when
  strictly positive), outbound doc types subtract quantity at the
  running average cost, clamping `total_qty` and `total_val` at zero;
  unknown warehouses are folded into `WAREHOUSES[0]`; SKUs present in
  the ledger but absent from the inventory table are materialized as
  stub rows; the result is sorted by (series, category, name, spec, sku)
  as `sort_inventory` (app.py:254-264) does.

Numeric fields are modelled as `ℚ` (the Python code uses floats; every
concrete computation in this development stays inside decimally-exact
values).  Ledger columns that the reducer never reads (dates, doc
numbers, vendors, fees, …) are omitted from the embedded record types.
-/

namespace InventoryApp

/-- Configured warehouses, app.py:47. -/
def WAREHOUSES : List String := ["Wen", "千畇", "James", "Imeng"]

/-- Inbound document types, app.py:313. -/
def INBOUND_TYPES : List String := ["進貨", "製造入庫", "調整入庫", "期初建檔", "庫存調整(加)"]

/-- Outbound document types, app.py:320. -/
def OUTBOUND_TYPES : List String := ["銷售出貨", "製造領料", "調整出庫", "庫存調整(減)"]

/-- Python `str.strip()` on the character list: drop whitespace at both ends. -/
def stripChars (cs : List Char) : List Char :=
  ((cs.dropWhile Char.isWhitespace).reverse.dropWhile Char.isWhitespace).reverse

/-- `safe_str` of app.py:92-96 restricted to strings: `str(v).strip()`. -/
def safe_str (s : String) : String :=
  String.mk (stripChars s.data)

/-- A ledger row (`History` table) as seen by the reducer: document type,
SKU, the four descriptive columns the stub materialization copies, the
warehouse, and the two numeric columns, already coerced to numbers the
way `normalize_history` (app.py:190-210) leaves them. -/
structure Entry where
  doc_type : String
  sku : String
  series : String
  category : String
  pname : String
  spec : String
  warehouse : String
  quantity : ℚ
  total_cost : ℚ
deriving DecidableEq, Repr

/-- An inventory row (`Inventory` table / `StockPosition`): descriptive
columns, SKU, total quantity, average unit cost, and the per-warehouse
quantities (columns `庫存_w`), kept as an association list in warehouse
order exactly like the Python dict `w_stock`. -/
structure Row where
  series : String
  category : String
  pname : String
  spec : String
  sku : String
  total_qty : ℚ
  avg_cost : ℚ
  w_stock : List (String × ℚ)
deriving DecidableEq, Repr

/-- Running reduction state for one SKU (app.py:300-302). -/
structure SkuState where
  total_qty : ℚ
  total_val : ℚ
  w_stock : List (String × ℚ)
deriving DecidableEq, Repr

/-- `{w: 0.0 for w in WAREHOUSES}` (app.py:302). -/
def initW : List (String × ℚ) := WAREHOUSES.map (fun w => (w, 0))

/-- Initial per-SKU state: `total_qty = 0`, `total_val = 0`, zeroed dict. -/
def initState : SkuState := ⟨0, 0, initW⟩

/-- `w_stock[wh] += d` on the association list: add `d` to the value at the
first occurrence of key `key`. -/
def updW : List (String × ℚ) → String → ℚ → List (String × ℚ)
  | [], _, _ => []
  | (w, q) :: rest, key, d =>
    if w = key then (w, q + d) :: rest else (w, q) :: updW rest key d

/-- Warehouse resolution (app.py:308-310): strip, and replace anything
outside `WAREHOUSES` by `WAREHOUSES[0]`. -/
def resolveWh (warehouse : String) : String :=
  let wh := safe_str warehouse
  if wh ∈ WAREHOUSES then wh else WAREHOUSES.getD 0 ""

/-- One iteration of the per-entry loop of `recalculate_inventory`
(app.py:304-328): dispatch on the (stripped) document type; inbound adds
quantity (cost only when strictly positive); outbound removes quantity at
the current average cost, clamping `total_qty` and `total_val` at zero and
subtracting from the warehouse dict without clamping; any other document
type leaves the state untouched. -/
def step (s : SkuState) (e : Entry) : SkuState :=
  let qty := e.quantity
  let cost_total := e.total_cost
  let doc_type := safe_str e.doc_type
  let wh := resolveWh e.warehouse
  if doc_type ∈ INBOUND_TYPES then
    { total_qty := s.total_qty + qty
      total_val := if cost_total > 0 then s.total_val + cost_total else s.total_val
      w_stock := updW s.w_stock wh qty }
  else if doc_type ∈ OUTBOUND_TYPES then
    let avg_cost := if s.total_qty > 0 then s.total_val / s.total_qty else 0
    let tq := s.total_qty - qty
    let tv := s.total_val - qty * avg_cost
    { total_qty := if tq < 0 then 0 else tq
      total_val := if tv < 0 then 0 else tv
      w_stock := updW s.w_stock wh (-qty) }
  else s

/-- Fold of one SKU's sub-history (app.py:298-328): filter the ledger to
the rows whose `貨號` equals `sku` (kept in ledger order) and fold `step`
from the zero state. -/
def foldSku (hist : List Entry) (sku : String) : SkuState :=
  (hist.filter (fun e => e.sku == sku)).foldl step initState

/-- Stub row materialized for a SKU that appears in the ledger but not in
the inventory table (app.py:278-289): descriptive fields copied from the
ledger entry, every balance zero. -/
def stubRow (e : Entry) : Row :=
  ⟨e.series, e.category, e.pname, e.spec, e.sku, 0, 0, initW⟩

/-- The `drop_duplicates("貨號")` stub collection (app.py:273-289): walk the
ledger in order and materialize one stub per SKU not already seen
(`seen` starts as the inventory's SKU list). -/
def collectStubs (seen : List String) : List Entry → List Row
  | [] => []
  | e :: rest =>
    if e.sku ∈ seen then collectStubs seen rest
    else stubRow e :: collectStubs (e.sku :: seen) rest

/-- Recompute one inventory row from the ledger (app.py:296-333): zero the
numeric columns, fold the SKU's sub-history, then write back `總庫存`,
`均價` (cost basis over quantity when positive, else 0) and the
per-warehouse columns.  Descriptive columns and the SKU are untouched. -/
def recomputeRow (hist : List Entry) (r : Row) : Row :=
  let s := foldSku hist r.sku
  { r with
    total_qty := s.total_qty
    avg_cost := if s.total_qty > 0 then s.total_val / s.total_qty else 0
    w_stock := s.w_stock }

/-- Strict code-point comparison of character lists, modelling how pandas
compares Python strings when sorting. -/
def charsLt : List Char → List Char → Bool
  | [], [] => false
  | [], _ :: _ => true
  | _ :: _, [] => false
  | a :: as, b :: bs =>
    if a.toNat < b.toNat then true
    else if b.toNat < a.toNat then false
    else charsLt as bs

/-- Strict string comparison by code points. -/
def strLtB (a b : String) : Bool := charsLt a.data b.data

/-- Lexicographic (non-strict) comparison of equal-length string keys. -/
def keyLe : List String → List String → Bool
  | [], _ => true
  | _ :: _, [] => false
  | a :: as, b :: bs =>
    if strLtB a b then true
    else if strLtB b a then false
    else keyLe as bs

/-- Sort key of `sort_inventory` (app.py:261-263):
`["系列", "分類", "品名", "規格", "貨號"]`, ascending. -/
def rowKey (r : Row) : List String := [r.series, r.category, r.pname, r.spec, r.sku]

/-- Row ordering used by `sort_inventory`. -/
def rowLe (a b : Row) : Bool := keyLe (rowKey a) (rowKey b)

/-- Insert into a sorted list (stable: an element goes before later
elements that compare equal to it). -/
def insertRow {α : Type} (le : α → α → Bool) (a : α) : List α → List α
  | [] => [a]
  | b :: bs => if le a b then a :: b :: bs else b :: insertRow le a bs

/-- Stable insertion sort. -/
def insSort {α : Type} (le : α → α → Bool) : List α → List α
  | [] => []
  | a :: as => insertRow le a (insSort le as)

/-- `sort_inventory` (app.py:254-264): sort the inventory rows by
(series, category, name, spec, sku), ascending. -/
def sort_inventory (rows : List Row) : List Row := insSort rowLe rows

/-- `recalculate_inventory` (app.py:267-335): materialize stub rows for
ledger SKUs missing from the inventory, recompute every row's numeric
columns from the ledger, and sort the result. -/
def recalculate_inventory (hist : List Entry) (inv : List Row) : List Row :=
  sort_inventory ((inv ++ collectStubs (inv.map (fun r => r.sku)) hist).map (recomputeRow hist))

/-- Stripped document type is inbound. -/
def isInbound (e : Entry) : Bool := decide (safe_str e.doc_type ∈ INBOUND_TYPES)

/-- Stripped document type is outbound. -/
def isOutbound (e : Entry) : Bool := decide (safe_str e.doc_type ∈ OUTBOUND_TYPES)

/-- A raw scalar cell as `safe_float` (app.py:83-90) receives it: a missing
value (`NaN`, caught by `pd.isna`), a string, or an already-numeric value. -/
inductive PyValue where
  | na : PyValue
  | str (s : String) : PyValue
  | num (q : ℚ) : PyValue
deriving DecidableEq, Repr

/-- All characters are decimal digits. -/
def allDigits (cs : List Char) : Bool := cs.all (fun c => c.isDigit)

/-- Value of a digit string. -/
def digitsVal (cs : List Char) : ℕ := cs.foldl (fun n c => 10 * n + (c.toNat - 48)) 0

/-- Take off an optional leading sign; `true` means negative. -/
def splitSign : List Char → Bool × List Char
  | '+' :: rest => (false, rest)
  | '-' :: rest => (true, rest)
  | cs => (false, cs)

/-- Parse an unsigned decimal mantissa (`123`, `123.`, `.5`, `1.25`);
at least one digit must be present and at most one point. -/
def parseMantissa? (cs : List Char) : Option ℚ :=
  let intPart := cs.takeWhile (fun c => !(c == '.'))
  match cs.dropWhile (fun c => !(c == '.')) with
  | [] =>
    if intPart.isEmpty then none
    else if allDigits intPart then some (digitsVal intPart) else none
  | _ :: fracPart =>
    if fracPart.any (fun c => c == '.') then none
    else if intPart.isEmpty && fracPart.isEmpty then none
    else if allDigits intPart && allDigits fracPart then
      some ((digitsVal intPart : ℚ) + (digitsVal fracPart : ℚ) / (10 : ℚ) ^ fracPart.length)
    else none

/-- Parse a signed integer exponent. -/
def parseExp? (cs : List Char) : Option ℤ :=
  let (neg, ds) := splitSign cs
  if ds.isEmpty then none
  else if allDigits ds then
    some (if neg then -(digitsVal ds : ℤ) else (digitsVal ds : ℤ))
  else none

/-- Python's `float(s)` on finite decimal literals: optional surrounding
whitespace, optional sign, decimal mantissa, optional `e`/`E` exponent.
`none` models the `ValueError` branch (non-numeric input). -/
def pyFloat? (s : String) : Option ℚ :=
  let cs := stripChars s.data
  let (neg, body) := splitSign cs
  let mant := body.takeWhile (fun c => !(c == 'e' || c == 'E'))
  match parseMantissa? mant with
  | none => none
  | some m =>
    let signedM : ℚ := if neg then -m else m
    match body.dropWhile (fun c => !(c == 'e' || c == 'E')) with
    | [] => some signedM
    | _ :: expPart =>
      match parseExp? expPart with
      | none => none
      | some e => some (signedM * (10 : ℚ) ^ e)

/-- `str(v).replace(",", "")` (app.py:88). -/
def removeCommas (s : String) : String :=
  String.mk (s.data.filter (fun c => !(c == ',')))

/-- `safe_float` (app.py:83-90): missing values and the empty string give 0;
otherwise strip commas and parse; any parse failure gives 0. -/
def safe_float : PyValue → ℚ
  | .na => 0
  | .num q => q
  | .str s =>
    if s = "" then 0
    else
      match pyFloat? (removeCommas s) with
      | some q => q
      | none => 0

/-- A cell is malformed when it is missing, empty, or fails to parse as a
number after comma removal. -/
def isMalformed : PyValue → Bool
  | .na => true
  | .num _ => false
  | .str s => decide (s = "") || (pyFloat? (removeCommas s)).isNone

/-- A ledger row before numeric normalization: the two numeric columns are
arbitrary raw cells. -/
structure RawEntry where
  doc_type : String
  sku : String
  series : String
  category : String
  pname : String
  spec : String
  warehouse : String
  quantity : PyValue
  total_cost : PyValue
deriving DecidableEq, Repr

/-- The numeric coercion `df[col].apply(safe_float)` of `normalize_history`
(app.py:198-200), which `recalculate_inventory` applies to its ledger
argument before folding (app.py:270). -/
def normalizeEntry (r : RawEntry) : Entry :=
  ⟨r.doc_type, r.sku, r.series, r.category, r.pname, r.spec, r.warehouse,
   safe_float r.quantity, safe_float r.total_cost⟩

/-- The reducer on raw ledger rows: coerce every numeric cell with
`safe_float`, then fold.  Total by construction — no input raises. -/
def recalculate_inventory_raw (hist : List RawEntry) (inv : List Row) : List Row :=
  recalculate_inventory (hist.map normalizeEntry) inv

/-- No outbound entry ever asks for more than the running `total_qty`
(i.e. the clamp at app.py:324-325 is never exercised) along the fold of
the given entries from state `s`. -/
def clampFreeB (s : SkuState) : List Entry → Bool
  | [] => true
  | e :: rest =>
    ((!isOutbound e) || decide (e.quantity ≤ s.total_qty)) && clampFreeB (step s e) rest

/-- Sum of the per-warehouse quantities. -/
def wsum (l : List (String × ℚ)) : ℚ := (l.map Prod.snd).sum

/-- Keys of the warehouse dict. -/
def wkeys (l : List (String × ℚ)) : List String := l.map Prod.fst

/-- A zero-cost purchase of 5 units (cost "not yet known", app.py:316). -/
def zeroCostPurchase (sku : String) : Entry :=
  ⟨"進貨", sku, "", "", "", "", "Wen", 5, 0⟩

/-! ### Concrete ledger fixtures used in the worked examples -/

/-- Purchase of 10 units at total cost 100. -/
def eP1 : Entry := ⟨"進貨", "A-001", "S", "C", "N", "P", "Wen", 10, 100⟩

/-- Sale of 4 units. -/
def eS1 : Entry := ⟨"銷售出貨", "A-001", "S", "C", "N", "P", "Wen", 4, 0⟩

/-- Purchase of 5 units at total cost 60. -/
def eP2 : Entry := ⟨"進貨", "A-001", "S", "C", "N", "P", "Wen", 5, 60⟩

/-- Expected stock position after `eP1, eS1, eP2`. -/
def rowC1 : Row :=
  ⟨"S", "C", "N", "P", "A-001", 11, 120 / 11, [("Wen", 11), ("千畇", 0), ("James", 0), ("Imeng", 0)]⟩

/-- Purchase of 0 units carrying a positive cost of 5. -/
def eIn0 : Entry := ⟨"進貨", "B-001", "", "", "", "", "Wen", 0, 5⟩

/-- Sale of 1 unit. -/
def eOut1 : Entry := ⟨"銷售出貨", "B-001", "", "", "", "", "Wen", 1, 0⟩

/-- Purchase of 1 unit with cost not yet entered. -/
def eIn1 : Entry := ⟨"進貨", "B-001", "", "", "", "", "Wen", 1, 0⟩

/-- Purchase of 5 units at cost 50 into warehouse Wen. -/
def eP5 : Entry := ⟨"進貨", "W-1", "S5", "C5", "N5", "P5", "Wen", 5, 50⟩

/-- Sale of 8 units out of warehouse James (more than the SKU holds). -/
def eS8 : Entry := ⟨"銷售出貨", "W-1", "S5", "C5", "N5", "P5", "James", 8, 0⟩

/-- Purchase whose warehouse string is not a configured warehouse. -/
def eMars : Entry := ⟨"進貨", "M-1", "", "", "", "", "Mars", 2, 0⟩

/-- Entry whose document type ("盤點") is in neither dispatch list. -/
def eStk : Entry := ⟨"盤點", "A-001", "", "", "", "", "Wen", 3, 0⟩

/-- Raw ledger row with a non-numeric quantity and a missing cost. -/
def rawBad : RawEntry := ⟨"進貨", "R-1", "", "", "", "", "Wen", .str "abc", .na⟩

/-! ### Helper lemmas: string literals under `safe_str` -/

theorem safe_str_purchase : safe_str "進貨" = "進貨" := rfl

theorem safe_str_sale : safe_str "銷售出貨" = "銷售出貨" := rfl

theorem safe_str_wen : safe_str "Wen" = "Wen" := rfl

theorem safe_str_james : safe_str "James" = "James" := rfl

theorem safe_str_mars : safe_str "Mars" = "Mars" := rfl

theorem safe_str_stocktake : safe_str "盤點" = "盤點" := rfl

/-! ### Helper lemmas: the warehouse dict -/

theorem wkeys_updW (l : List (String × ℚ)) (k : String) (d : ℚ) :
    wkeys (updW l k d) = wkeys l := by
  induction l with
  | nil => rfl
  | cons p rest ih =>
    obtain ⟨w, q⟩ := p
    by_cases h : w = k
    · simp [updW, h, wkeys]
    · simp only [updW, if_neg h, wkeys, List.map_cons]
      simpa [wkeys] using ih

theorem wsum_cons (w : String) (q : ℚ) (rest : List (String × ℚ)) :
    wsum ((w, q) :: rest) = q + wsum rest := by
  simp [wsum]

theorem wsum_updW (l : List (String × ℚ)) (k : String) (d : ℚ) (h : k ∈ wkeys l) :
    wsum (updW l k d) = wsum l + d := by
  induction l with
  | nil => simp [wkeys] at h
  | cons p rest ih =>
    obtain ⟨w, q⟩ := p
    by_cases hw : w = k
    · simp [updW, hw, wsum_cons]
      ring
    · have hk : k ∈ wkeys rest := by
        simp only [wkeys, List.map_cons, List.mem_cons] at h
        rcases h with h | h
        · exact absurd h.symm hw
        · simpa [wkeys] using h
      simp [updW, hw, wsum_cons, ih hk]
      ring

theorem wkeys_initW : wkeys initW = WAREHOUSES := rfl

theorem wsum_initW : wsum initW = 0 := by
  norm_num [wsum, initW, WAREHOUSES]

theorem resolveWh_mem (w : String) : resolveWh w ∈ WAREHOUSES := by
  by_cases h : safe_str w ∈ WAREHOUSES
  · simp only [resolveWh, if_pos h]
    exact h
  · simp only [resolveWh, if_neg h]
    decide

/-! ### Helper lemmas: the three branches of `step` -/

theorem inbound_outbound_disjoint (x : String) :
    x ∈ INBOUND_TYPES → x ∉ OUTBOUND_TYPES := by
  intro hin hout
  fin_cases hin <;> simp_all [OUTBOUND_TYPES]

theorem isOutbound_of_isInbound_false (e : Entry) (h : isInbound e = true) :
    isOutbound e = false := by
  simp only [isInbound, decide_eq_true_eq] at h
  simpa [isOutbound] using inbound_outbound_disjoint _ h

theorem step_inbound (s : SkuState) (e : Entry) (h : isInbound e = true) :
    step s e =
      { total_qty := s.total_qty + e.quantity
        total_val := if e.total_cost > 0 then s.total_val + e.total_cost else s.total_val
        w_stock := updW s.w_stock (resolveWh e.warehouse) e.quantity } := by
  simp only [isInbound, decide_eq_true_eq] at h
  simp [step, resolveWh, h]

theorem step_outbound (s : SkuState) (e : Entry) (h : isOutbound e = true) :
    step s e =
      { total_qty :=
          if s.total_qty - e.quantity < 0 then 0 else s.total_qty - e.quantity
        total_val :=
          if s.total_val - e.quantity * (if s.total_qty > 0 then s.total_val / s.total_qty else 0) < 0
          then 0
          else s.total_val - e.quantity * (if s.total_qty > 0 then s.total_val / s.total_qty else 0)
        w_stock := updW s.w_stock (resolveWh e.warehouse) (-e.quantity) } := by
  simp only [isOutbound, decide_eq_true_eq] at h
  have hnotin : safe_str e.doc_type ∉ INBOUND_TYPES := by
    intro hc
    exact inbound_outbound_disjoint _ hc h
  simp [step, resolveWh, h, hnotin]

theorem step_other (s : SkuState) (e : Entry)
    (hin : isInbound e = false) (hout : isOutbound e = false) :
    step s e = s := by
  simp only [isInbound, isOutbound, decide_eq_false_iff_not] at hin hout
  simp [step, hin, hout]

/-! ### Helper lemmas: insertion sort -/

theorem mem_insertRow {α : Type} (le : α → α → Bool) (a x : α) :
    ∀ l : List α, x ∈ insertRow le a l ↔ x = a ∨ x ∈ l := by
  intro l
  induction l with
  | nil => simp [insertRow]
  | cons b bs ih =>
    by_cases h : le a b = true
    · simp [insertRow, h]
    · simp only [insertRow, if_neg h, List.mem_cons, ih]
      tauto

theorem mem_insSort {α : Type} (le : α → α → Bool) (x : α) :
    ∀ l : List α, x ∈ insSort le l ↔ x ∈ l := by
  intro l
  induction l with
  | nil => simp [insSort]
  | cons a as ih =>
    simp [insSort, mem_insertRow, ih]

theorem chain'_insertRow {α : Type} (le : α → α → Bool)
    (htot : ∀ a b, le a b = true ∨ le b a = true) (a : α) :
    ∀ l : List α, l.Chain' (fun x y => le x y = true) →
      (insertRow le a l).Chain' (fun x y => le x y = true) := by
  intro l
  induction l with
  | nil => simp [insertRow]
  | cons b bs ih =>
    intro hchain
    rw [List.chain'_cons'] at hchain
    by_cases h : le a b = true
    · rw [insertRow, if_pos h]
      rw [List.chain'_cons']
      refine ⟨?_, ?_⟩
      · intro y hy
        simp at hy
        subst hy
        exact h
      · rw [List.chain'_cons']
        exact hchain
    · rw [insertRow, if_neg h]
      rw [List.chain'_cons']
      refine ⟨?_, ih hchain.2⟩
      intro y hy
      cases bs with
      | nil =>
        simp [insertRow] at hy
        subst hy
        rcases htot a b with hab | hba
        · exact absurd hab h
        · exact hba
      | cons c cs =>
        by_cases hac : le a c = true
        · simp only [insertRow, if_pos hac, List.head?_cons, Option.mem_def,
            Option.some.injEq] at hy
          subst hy
          rcases htot a b with hab | hba
          · exact absurd hab h
          · exact hba
        · simp only [insertRow, if_neg hac, List.head?_cons, Option.mem_def,
            Option.some.injEq] at hy
          subst hy
          exact hchain.1 c rfl

theorem chain'_insSort {α : Type} (le : α → α → Bool)
    (htot : ∀ a b, le a b = true ∨ le b a = true) :
    ∀ l : List α, (insSort le l).Chain' (fun x y => le x y = true) := by
  intro l
  induction l with
  | nil => simp [insSort]
  | cons a as ih => exact chain'_insertRow le htot a _ ih

theorem insSort_of_chain' {α : Type} (le : α → α → Bool) :
    ∀ l : List α, l.Chain' (fun x y => le x y = true) → insSort le l = l := by
  intro l
  induction l with
  | nil => intro _; rfl
  | cons a as ih =>
    intro hchain
    rw [List.chain'_cons'] at hchain
    rw [insSort, ih hchain.2]
    cases as with
    | nil => rfl
    | cons b bs =>
      rw [insertRow, if_pos (hchain.1 b rfl)]

/-! ### Helper lemmas: totality of the sort order -/

theorem keyLe_total : ∀ k1 k2 : List String, keyLe k1 k2 = true ∨ keyLe k2 k1 = true := by
  intro k1
  induction k1 with
  | nil => intro k2; left; rfl
  | cons a as ih =>
    intro k2
    cases k2 with
    | nil => right; rfl
    | cons b bs =>
      by_cases hab : strLtB a b = true
      · left
        rw [keyLe, if_pos hab]
      · by_cases hba : strLtB b a = true
        · right
          rw [keyLe, if_pos hba]
        · rcases ih bs with h | h
          · left
            rw [keyLe, if_neg hab, if_neg hba]
            exact h
          · right
            rw [keyLe, if_neg hba, if_neg hab]
            exact h

theorem rowLe_total : ∀ a b : Row, rowLe a b = true ∨ rowLe b a = true := by
  intro a b
  exact keyLe_total (rowKey a) (rowKey b)

/-! ### Helper lemmas: stub materialization -/

theorem collectStubs_sku_mem :
    ∀ (seen : List String) (hist : List Entry) (e : Entry), e ∈ hist →
      e.sku ∈ seen ∨ e.sku ∈ (collectStubs seen hist).map Row.sku := by
  intro seen hist
  induction hist generalizing seen with
  | nil => intro e he; cases he
  | cons e0 rest ih =>
    intro e he
    by_cases h0 : e0.sku ∈ seen
    · rw [collectStubs, if_pos h0]
      rcases List.mem_cons.mp he with he | he
      · left; rw [he]; exact h0
      · exact ih seen e he
    · rw [collectStubs, if_neg h0]
      rcases List.mem_cons.mp he with he | he
      · right
        rw [he]
        simp [stubRow]
      · rcases ih (e0.sku :: seen) e he with h | h
        · rcases List.mem_cons.mp h with h | h
          · right
            rw [h]
            simp [stubRow]
          · left; exact h
        · right
          simp only [List.map_cons, List.mem_cons]
          right; exact h

theorem collectStubs_eq_nil :
    ∀ (seen : List String) (hist : List Entry),
      (∀ e ∈ hist, e.sku ∈ seen) → collectStubs seen hist = [] := by
  intro seen hist
  induction hist with
  | nil => intro _; rfl
  | cons e0 rest ih =>
    intro h
    rw [collectStubs, if_pos (h e0 (List.mem_cons_self e0 rest))]
    exact ih fun e he => h e (List.mem_cons_of_mem e0 he)

theorem collectStubs_exists_stub :
    ∀ (seen : List String) (hist : List Entry) (e : Entry), e ∈ hist → e.sku ∉ seen →
      ∃ e', e' ∈ hist ∧ e'.sku = e.sku ∧ stubRow e' ∈ collectStubs seen hist := by
  intro seen hist
  induction hist generalizing seen with
  | nil => intro e he; cases he
  | cons e0 rest ih =>
    intro e he hns
    by_cases h0 : e0.sku ∈ seen
    · rw [collectStubs, if_pos h0]
      rcases List.mem_cons.mp he with he | he
      · rw [he] at hns; exact absurd h0 hns
      · obtain ⟨e', h1, h2, h3⟩ := ih seen e he hns
        exact ⟨e', List.mem_cons_of_mem e0 h1, h2, h3⟩
    · rw [collectStubs, if_neg h0]
      rcases List.mem_cons.mp he with he | he
      · exact ⟨e0, List.mem_cons_self e0 rest, by rw [he], List.mem_cons_self _ _⟩
      · by_cases hsk : e.sku = e0.sku
        · exact ⟨e0, List.mem_cons_self e0 rest, hsk.symm, List.mem_cons_self _ _⟩
        · have hns' : e.sku ∉ e0.sku :: seen := by
            simp only [List.mem_cons]
            rintro (h | h)
            · exact hsk h
            · exact hns h
          obtain ⟨e', h1, h2, h3⟩ := ih (e0.sku :: seen) e he hns'
          exact ⟨e', List.mem_cons_of_mem e0 h1, h2, List.mem_cons_of_mem _ h3⟩

/-! ### Helper lemmas: recomputing a row -/

theorem recomputeRow_sku (hist : List Entry) (r : Row) :
    (recomputeRow hist r).sku = r.sku := rfl

theorem recomputeRow_idem (hist : List Entry) (r : Row) :
    recomputeRow hist (recomputeRow hist r) = recomputeRow hist r := rfl

theorem map_id_of {β : Type} (f : β → β) :
    ∀ l : List β, (∀ x ∈ l, f x = x) → l.map f = l := by
  intro l
  induction l with
  | nil => intro _; rfl
  | cons a as ih =>
    intro h
    rw [List.map_cons, h a (List.mem_cons_self a as), ih fun x hx => h x (List.mem_cons_of_mem a hx)]

theorem mem_recalculate (hist : List Entry) (inv : List Row) (r : Row) :
    r ∈ recalculate_inventory hist inv ↔
      r ∈ (inv ++ collectStubs (inv.map (fun x => x.sku)) hist).map (recomputeRow hist) := by
  rw [recalculate_inventory, sort_inventory, mem_insSort]

/-! ### Helper lemmas: conservation of quantity across the fold -/

theorem step_wkeys (s : SkuState) (e : Entry) :
    wkeys (step s e).w_stock = wkeys s.w_stock := by
  by_cases hin : isInbound e = true
  · rw [step_inbound s e hin]
    exact wkeys_updW _ _ _
  · by_cases hout : isOutbound e = true
    · rw [step_outbound s e hout]
      exact wkeys_updW _ _ _
    · rw [step_other s e (by simpa using hin) (by simpa using hout)]

theorem step_conserve (s : SkuState) (e : Entry)
    (hsum : s.total_qty = wsum s.w_stock)
    (hkeys : wkeys s.w_stock = WAREHOUSES)
    (hclamp : isOutbound e = true → e.quantity ≤ s.total_qty) :
    (step s e).total_qty = wsum (step s e).w_stock := by
  have hmem : resolveWh e.warehouse ∈ wkeys s.w_stock := by
    rw [hkeys]; exact resolveWh_mem e.warehouse
  by_cases hin : isInbound e = true
  · rw [step_inbound s e hin]
    simp only [wsum_updW s.w_stock _ _ hmem]
    rw [hsum]
  · by_cases hout : isOutbound e = true
    · rw [step_outbound s e hout]
      have hq : e.quantity ≤ s.total_qty := hclamp hout
      have hge : ¬ s.total_qty - e.quantity < 0 := by linarith
      simp only [wsum_updW s.w_stock _ _ hmem, if_neg hge]
      rw [hsum]
      ring
    · rw [step_other s e (by simpa using hin) (by simpa using hout)]
      exact hsum

theorem foldl_conserve :
    ∀ (entries : List Entry) (s : SkuState),
      s.total_qty = wsum s.w_stock → wkeys s.w_stock = WAREHOUSES →
      clampFreeB s entries = true →
      (entries.foldl step s).total_qty = wsum (entries.foldl step s).w_stock ∧
        wkeys (entries.foldl step s).w_stock = WAREHOUSES := by
  intro entries
  induction entries with
  | nil => intro s h1 h2 _; exact ⟨h1, h2⟩
  | cons e rest ih =>
    intro s h1 h2 hcf
    rw [clampFreeB, Bool.and_eq_true] at hcf
    have hclamp : isOutbound e = true → e.quantity ≤ s.total_qty := by
      intro ho
      rcases Bool.or_eq_true _ _ |>.mp hcf.1 with h | h
      · rw [ho] at h; simp at h
      · exact of_decide_eq_true h
    have hs1 : (step s e).total_qty = wsum (step s e).w_stock :=
      step_conserve s e h1 h2 hclamp
    have hs2 : wkeys (step s e).w_stock = WAREHOUSES := by
      rw [step_wkeys]; exact h2
    rw [List.foldl_cons]
    exact ih (step s e) hs1 hs2 hcf.2

/-! ### Shared concrete evaluations -/

theorem foldSku_eP1 : foldSku [eP1] "A-001" =
    ⟨10, 100, [("Wen", 10), ("千畇", 0), ("James", 0), ("Imeng", 0)]⟩ := by
  norm_num +decide [foldSku, step, resolveWh, initState, initW, updW,
    INBOUND_TYPES, OUTBOUND_TYPES, WAREHOUSES, List.filter, eP1]

theorem foldSku_eP1_eS1 : foldSku [eP1, eS1] "A-001" =
    ⟨6, 60, [("Wen", 6), ("千畇", 0), ("James", 0), ("Imeng", 0)]⟩ := by
  norm_num +decide [foldSku, step, resolveWh, initState, initW, updW,
    INBOUND_TYPES, OUTBOUND_TYPES, WAREHOUSES, List.filter, eP1, eS1]

theorem recalc_worked_example :
    recalculate_inventory [eP1, eS1, eP2] [] = [rowC1] := by
  norm_num +decide [recalculate_inventory, sort_inventory, insSort, insertRow, collectStubs,
    stubRow, recomputeRow, foldSku, step, resolveWh, initState, initW, updW,
    INBOUND_TYPES, OUTBOUND_TYPES, WAREHOUSES, List.filter, eP1, eS1, eP2, rowC1]

/-! ### The claims -/

/-- C1: for the single-SKU ledger Purchase qty=10 total_cost=100, then
Sale qty=4, then Purchase qty=5 total_cost=60, folded in that order, the
reducer reaches the intermediate states total_qty=10 / cost_basis=100 and
then total_qty=6 / cost_basis=60, and its final output for the SKU has
total_qty = 11 and avg_unit_cost = 120/11. -/
theorem C1_worked_example :
    (foldSku [eP1] "A-001").total_qty = 10 ∧
    (foldSku [eP1] "A-001").total_val = 100 ∧
    (foldSku [eP1, eS1] "A-001").total_qty = 6 ∧
    (foldSku [eP1, eS1] "A-001").total_val = 60 ∧
    (recalculate_inventory [eP1, eS1, eP2] []).map Row.total_qty = [11] ∧
    (recalculate_inventory [eP1, eS1, eP2] []).map Row.avg_cost = [120 / 11] := by
  rw [foldSku_eP1, foldSku_eP1_eS1, recalc_worked_example]
  norm_num [rowC1]

/-- C5: per-warehouse quantities are not clamped: on the ledger
Purchase 5 into Wen, then Sale 8 out of James, the output row has
total_qty clamped at 0 while `庫存_James` is strictly negative (-8). -/
theorem C5_warehouse_negative :
    recalculate_inventory [eP5, eS8] [] =
      [⟨"S5", "C5", "N5", "P5", "W-1", 0, 0,
        [("Wen", 5), ("千畇", 0), ("James", -8), ("Imeng", 0)]⟩] ∧
    ((-8 : ℚ) < 0) := by
  constructor
  · norm_num +decide [recalculate_inventory, sort_inventory, insSort, insertRow, collectStubs,
      stubRow, recomputeRow, foldSku, step, resolveWh, initState, initW, updW,
      INBOUND_TYPES, OUTBOUND_TYPES, WAREHOUSES, List.filter, eP5, eS8]
  · norm_num

/-- C10: an entry whose (stripped, as the reducer reads it via `safe_str`)
document type is in neither the inbound nor the outbound list leaves the
state untouched, and deleting it from any position of the ledger does not
change the per-SKU fold: total quantity, cost basis and every
per-warehouse quantity are unchanged by processing it. -/
theorem C10_unknown_doc_type (s : SkuState) (e : Entry) (h1 h2 : List Entry) (sk : String)
    (hin : safe_str e.doc_type ∉ INBOUND_TYPES)
    (hout : safe_str e.doc_type ∉ OUTBOUND_TYPES) :
    step s e = s ∧ foldSku (h1 ++ e :: h2) sk = foldSku (h1 ++ h2) sk := by
  have hstep : ∀ t : SkuState, step t e = t := by
    intro t
    exact step_other t e (by simp [isInbound, hin]) (by simp [isOutbound, hout])
  refine ⟨hstep s, ?_⟩
  unfold foldSku
  rw [List.filter_append, List.filter_append, List.filter_cons]
  by_cases hsk : (e.sku == sk) = true
  · rw [if_pos hsk, List.foldl_append, List.foldl_append, List.foldl_cons, hstep]
  · rw [if_neg hsk]

/-- C10 witness: the stock-take entry `eStk` (doc type `盤點`) is ignored. -/
theorem C10_unknown_doc_type_witness :
    step initState eStk = initState ∧
      foldSku ([eP1] ++ eStk :: []) "A-001" = foldSku ([eP1] ++ []) "A-001" :=
  C10_unknown_doc_type initState eStk [eP1] [] "A-001" (by decide) (by decide)

/-- C7: an entry whose warehouse value (stripped, as the reducer reads it)
is not one of the configured warehouses behaves exactly as if its
warehouse were `WAREHOUSES[0]`; in particular its quantity effect lands on
the first configured warehouse, and the entry is neither dropped nor
rejected. -/
theorem C7_unknown_warehouse (s : SkuState) (e : Entry)
    (h : safe_str e.warehouse ∉ WAREHOUSES) :
    step s e = step s { e with warehouse := WAREHOUSES.getD 0 "" } ∧
    (isInbound e = true →
      (step s e).w_stock = updW s.w_stock (WAREHOUSES.getD 0 "") e.quantity) ∧
    (isOutbound e = true →
      (step s e).w_stock = updW s.w_stock (WAREHOUSES.getD 0 "") (-e.quantity)) := by
  have hres : resolveWh e.warehouse = WAREHOUSES.getD 0 "" := by
    simp only [resolveWh, if_neg h]
  have hres2 : resolveWh ({ e with warehouse := WAREHOUSES.getD 0 "" } : Entry).warehouse =
      WAREHOUSES.getD 0 "" := rfl
  refine ⟨?_, ?_, ?_⟩
  · simp only [step, hres, hres2]
  · intro hin
    rw [step_inbound s e hin, hres]
  · intro hout
    rw [step_outbound s e hout, hres]

/-- C7 witness: the entry `eMars` (warehouse "Mars") is folded into Wen. -/
theorem C7_unknown_warehouse_witness :
    step initState eMars = step initState { eMars with warehouse := WAREHOUSES.getD 0 "" } ∧
    (isInbound eMars = true →
      (step initState eMars).w_stock = updW initState.w_stock (WAREHOUSES.getD 0 "") eMars.quantity) ∧
    (isOutbound eMars = true →
      (step initState eMars).w_stock = updW initState.w_stock (WAREHOUSES.getD 0 "") (-eMars.quantity)) :=
  C7_unknown_warehouse initState eMars (by decide)

/-- Concrete evaluation: the fold of `eP5` alone. -/
theorem foldSku_eP5 : foldSku [eP5] "W-1" =
    ⟨5, 50, [("Wen", 5), ("千畇", 0), ("James", 0), ("Imeng", 0)]⟩ := by
  norm_num +decide [foldSku, step, resolveWh, initState, initW, updW,
    INBOUND_TYPES, OUTBOUND_TYPES, WAREHOUSES, List.filter, eP5]

/-- C3 (amended): when an outbound entry's quantity strictly exceeds the
running total_qty, the reducer clamps total_qty to 0 and clamps the cost
basis at 0 (it is never negative); the cost basis is guaranteed to reach
exactly 0 at that step when the running total_qty was strictly positive
(with a nonnegative basis) — but not in general. -/
theorem C3_amended (s : SkuState) (e : Entry)
    (hout : isOutbound e = true) (hq : s.total_qty < e.quantity) :
    (step s e).total_qty = 0 ∧ 0 ≤ (step s e).total_val ∧
      (0 < s.total_qty → 0 ≤ s.total_val → (step s e).total_val = 0) := by
  rw [step_outbound s e hout]
  refine ⟨?_, ?_, ?_⟩
  · dsimp only
    rw [if_pos (by linarith)]
  · dsimp only
    by_cases hnl :
        s.total_val - e.quantity * (if s.total_qty > 0 then s.total_val / s.total_qty else 0) < 0
    · rw [if_pos hnl]
    · rw [if_neg hnl]
      exact not_lt.mp hnl
  · intro htq htv
    dsimp only
    rw [if_pos htq]
    have hne : s.total_qty ≠ 0 := ne_of_gt htq
    have h1 : s.total_qty * (s.total_val / s.total_qty) = s.total_val := by
      field_simp
    have h2 := mul_le_mul_of_nonneg_right (le_of_lt hq) (div_nonneg htv (le_of_lt htq))
    rw [h1] at h2
    split
    · rfl
    · next hnl => linarith [not_lt.mp hnl]

/-- C3 witness: over-selling SKU `W-1` (8 sold, 5 on hand) clamps both
total quantity and cost basis to 0. -/
theorem C3_amended_witness :
    isOutbound eS8 = true ∧
    (foldSku [eP5] "W-1").total_qty < eS8.quantity ∧
    ((step (foldSku [eP5] "W-1") eS8).total_qty = 0 ∧
      0 ≤ (step (foldSku [eP5] "W-1") eS8).total_val ∧
      (0 < (foldSku [eP5] "W-1").total_qty → 0 ≤ (foldSku [eP5] "W-1").total_val →
        (step (foldSku [eP5] "W-1") eS8).total_val = 0)) :=
  ⟨by decide, by rw [foldSku_eP5]; norm_num [eS8],
    C3_amended _ eS8 (by decide) (by rw [foldSku_eP5]; norm_num [eS8])⟩

/-- C3 counterexample: the claim as stated is false — after Purchase qty=0
cost=5, the Sale qty=1 exceeds the running total_qty (0), yet the cost
basis after the clamping step is 5, not 0 (only total_qty is zeroed).
The nonzero basis is observable: a later 1-unit zero-cost purchase makes
the reported average 5. -/
theorem C3_counterexample :
    isOutbound eOut1 = true ∧
    (foldSku [eIn0] "B-001").total_qty < eOut1.quantity ∧
    (foldSku [eIn0, eOut1] "B-001").total_qty = 0 ∧
    (foldSku [eIn0, eOut1] "B-001").total_val = 5 ∧
    ¬ (foldSku [eIn0, eOut1] "B-001").total_val = 0 ∧
    (recalculate_inventory [eIn0, eOut1, eIn1] []).map Row.avg_cost = [5] := by
  norm_num +decide [foldSku, step, isOutbound, resolveWh, initState, initW, updW,
    recalculate_inventory, sort_inventory, insSort, insertRow, collectStubs, stubRow,
    recomputeRow, INBOUND_TYPES, OUTBOUND_TYPES, WAREHOUSES, List.filter, eIn0, eOut1, eIn1]

/-- C2 (amended): appending one zero-cost inbound entry of quantity 5 and
re-running the fold leaves the SKU's cost basis unchanged (the zero cost
is excluded from the basis) and increases total_qty by 5; consequently
avg_unit_cost does change — it strictly decreases from basis/qty to
basis/(qty+5) whenever quantity and basis were positive. -/
theorem C2_amended (hist : List Entry) (sk : String)
    (hq : 0 < (foldSku hist sk).total_qty) (hv : 0 < (foldSku hist sk).total_val) :
    (foldSku (hist ++ [zeroCostPurchase sk]) sk).total_val = (foldSku hist sk).total_val ∧
    (foldSku (hist ++ [zeroCostPurchase sk]) sk).total_qty = (foldSku hist sk).total_qty + 5 ∧
    (foldSku (hist ++ [zeroCostPurchase sk]) sk).total_val /
        (foldSku (hist ++ [zeroCostPurchase sk]) sk).total_qty <
      (foldSku hist sk).total_val / (foldSku hist sk).total_qty := by
  have hin : isInbound (zeroCostPurchase sk) = true := by
    simp [isInbound, zeroCostPurchase, INBOUND_TYPES, safe_str_purchase]
  have happ : foldSku (hist ++ [zeroCostPurchase sk]) sk =
      step (foldSku hist sk) (zeroCostPurchase sk) := by
    unfold foldSku
    rw [List.filter_append, List.foldl_append]
    have hf : List.filter (fun e => e.sku == sk) [zeroCostPurchase sk] = [zeroCostPurchase sk] := by
      simp [zeroCostPurchase]
    rw [hf, List.foldl_cons, List.foldl_nil]
  rw [happ, step_inbound _ _ hin]
  dsimp only [zeroCostPurchase]
  rw [if_neg (by norm_num)]
  refine ⟨rfl, rfl, ?_⟩
  exact div_lt_div_of_pos_left hv hq (by linarith)

/-- C2 witness: with the single purchase `eP1` (10 units at 100), the
zero-cost purchase leaves the basis at 100, raises the quantity to 15,
and lowers the average. -/
theorem C2_amended_witness :
    0 < (foldSku [eP1] "A-001").total_qty ∧
    0 < (foldSku [eP1] "A-001").total_val ∧
    ((foldSku ([eP1] ++ [zeroCostPurchase "A-001"]) "A-001").total_val =
        (foldSku [eP1] "A-001").total_val ∧
      (foldSku ([eP1] ++ [zeroCostPurchase "A-001"]) "A-001").total_qty =
        (foldSku [eP1] "A-001").total_qty + 5 ∧
      (foldSku ([eP1] ++ [zeroCostPurchase "A-001"]) "A-001").total_val /
          (foldSku ([eP1] ++ [zeroCostPurchase "A-001"]) "A-001").total_qty <
        (foldSku [eP1] "A-001").total_val / (foldSku [eP1] "A-001").total_qty) :=
  ⟨by rw [foldSku_eP1]; norm_num, by rw [foldSku_eP1]; norm_num,
    C2_amended [eP1] "A-001" (by rw [foldSku_eP1]; norm_num) (by rw [foldSku_eP1]; norm_num)⟩

/-- C2 counterexample: the claim as stated is false — before the zero-cost
purchase the SKU has total_qty = 10 > 0 and cost basis = 100 > 0 with
avg_unit_cost 10; after appending Purchase qty=5 total_cost=0 and
re-running the reducer, avg_unit_cost is 100/15 = 20/3 ≠ 10. -/
theorem C2_counterexample :
    0 < (foldSku [eP1] "A-001").total_qty ∧
    0 < (foldSku [eP1] "A-001").total_val ∧
    (recalculate_inventory [eP1] []).map Row.avg_cost = [10] ∧
    (recalculate_inventory ([eP1] ++ [zeroCostPurchase "A-001"]) []).map Row.avg_cost = [20 / 3] ∧
    ¬ ((20 / 3 : ℚ) = 10) := by
  rw [foldSku_eP1]
  norm_num +decide [recalculate_inventory, sort_inventory, insSort, insertRow, collectStubs,
    stubRow, recomputeRow, foldSku, step, resolveWh, initState, initW, updW,
    INBOUND_TYPES, OUTBOUND_TYPES, WAREHOUSES, List.filter, eP1, zeroCostPurchase]

/-- C4: whenever the over-sell clamp is never exercised along a SKU's
sub-history (no outbound entry asks for more than the running total), the
output row satisfies the conservation invariant
`total_qty = sum(qty_by_warehouse.values())`. -/
theorem C4_conservation (hist : List Entry) (inv : List Row) (r : Row)
    (hr : r ∈ recalculate_inventory hist inv)
    (hcf : clampFreeB initState (hist.filter (fun e => e.sku == r.sku)) = true) :
    r.total_qty = wsum r.w_stock := by
  rw [mem_recalculate] at hr
  obtain ⟨y, hy, hyr⟩ := List.mem_map.mp hr
  have hsku : r.sku = y.sku := by rw [← hyr]; rfl
  rw [hsku] at hcf
  have h := foldl_conserve (hist.filter (fun e => e.sku == y.sku)) initState
    (by simp [initState, wsum_initW]) wkeys_initW hcf
  rw [← hyr]
  exact h.1

/-- C4 witness: the worked three-entry ledger never exercises the clamp,
and its output row conserves quantity across warehouses. -/
theorem C4_conservation_witness :
    rowC1 ∈ recalculate_inventory [eP1, eS1, eP2] [] ∧
    clampFreeB initState ([eP1, eS1, eP2].filter (fun e => e.sku == rowC1.sku)) = true ∧
    rowC1.total_qty = wsum rowC1.w_stock := by
  have h1 : rowC1 ∈ recalculate_inventory [eP1, eS1, eP2] [] := by
    rw [recalc_worked_example]
    exact List.mem_singleton.mpr rfl
  have h2 : clampFreeB initState ([eP1, eS1, eP2].filter (fun e => e.sku == rowC1.sku)) = true := by
    norm_num +decide [clampFreeB, step, isOutbound, resolveWh, initState, initW, updW,
      INBOUND_TYPES, OUTBOUND_TYPES, WAREHOUSES, List.filter, eP1, eS1, eP2, rowC1]
  exact ⟨h1, h2, C4_conservation [eP1, eS1, eP2] [] rowC1 h1 h2⟩

/-- C6: a ledger entry whose SKU is absent from the inventory table makes
the output contain a row for that SKU, obtained by recomputing a stub row
whose descriptive fields (series, category, name, spec) are copied from a
ledger entry of that SKU and whose starting balances are zero. -/
theorem C6_unknown_sku (hist : List Entry) (inv : List Row) (e : Entry)
    (he : e ∈ hist) (hmiss : e.sku ∉ inv.map (fun r => r.sku)) :
    ∃ e' r, e' ∈ hist ∧ e'.sku = e.sku ∧ r ∈ recalculate_inventory hist inv ∧
      r = recomputeRow hist (stubRow e') := by
  obtain ⟨e', h1, h2, h3⟩ := collectStubs_exists_stub (inv.map (fun r => r.sku)) hist e he hmiss
  refine ⟨e', recomputeRow hist (stubRow e'), h1, h2, ?_, rfl⟩
  rw [mem_recalculate]
  exact List.mem_map.mpr ⟨stubRow e', List.mem_append_right inv h3, rfl⟩

/-- C6 witness: SKU `A-001` appears in the ledger but not in the (empty)
inventory, and is materialized in the output. -/
theorem C6_unknown_sku_witness :
    eP1 ∈ [eP1] ∧ eP1.sku ∉ ([] : List Row).map (fun r => r.sku) ∧
    (∃ e' r, e' ∈ [eP1] ∧ e'.sku = eP1.sku ∧ r ∈ recalculate_inventory [eP1] [] ∧
      r = recomputeRow [eP1] (stubRow e')) :=
  ⟨List.mem_singleton.mpr rfl, by simp,
    C6_unknown_sku [eP1] [] eP1 (List.mem_singleton.mpr rfl) (by simp)⟩

/-- C8: the reducer is idempotent — feeding its own output back as the
inventory argument and re-running it on the same ledger returns exactly
the same output. -/
theorem C8_idempotent (hist : List Entry) (inv : List Row) :
    recalculate_inventory hist (recalculate_inventory hist inv) =
      recalculate_inventory hist inv := by
  have hskus : ∀ e ∈ hist, e.sku ∈ (recalculate_inventory hist inv).map (fun r => r.sku) := by
    intro e he
    have hmem : ∃ y, y ∈ inv ++ collectStubs (inv.map (fun r => r.sku)) hist ∧ y.sku = e.sku := by
      rcases collectStubs_sku_mem (inv.map (fun r => r.sku)) hist e he with h | h
      · obtain ⟨y, hy, hsk⟩ := List.mem_map.mp h
        exact ⟨y, List.mem_append_left _ hy, hsk⟩
      · obtain ⟨y, hy, hsk⟩ := List.mem_map.mp h
        exact ⟨y, List.mem_append_right _ hy, hsk⟩
    obtain ⟨y, hy, hsk⟩ := hmem
    refine List.mem_map.mpr ⟨recomputeRow hist y, ?_, ?_⟩
    · rw [mem_recalculate]
      exact List.mem_map.mpr ⟨y, hy, rfl⟩
    · rw [recomputeRow_sku, hsk]
  have hstubs : collectStubs ((recalculate_inventory hist inv).map (fun r => r.sku)) hist = [] :=
    collectStubs_eq_nil _ hist hskus
  have hmap : (recalculate_inventory hist inv).map (recomputeRow hist) =
      recalculate_inventory hist inv := by
    apply map_id_of
    intro x hx
    rw [mem_recalculate] at hx
    obtain ⟨y, _, hyx⟩ := List.mem_map.mp hx
    rw [← hyx, recomputeRow_idem]
  conv_lhs => rw [recalculate_inventory]
  rw [hstubs, List.append_nil, hmap, sort_inventory]
  apply insSort_of_chain'
  rw [recalculate_inventory, sort_inventory]
  exact chain'_insSort rowLe rowLe_total _

/-- C9: the reduction is total over raw string-valued numeric cells: a
quantity or total_cost that is missing, empty, or non-numeric is coerced
to 0 by `safe_float` before folding, and the raw-ledger reducer is exactly
the reducer applied to the coerced entries. -/
theorem C9_safe_parse (v : PyValue) (r : RawEntry) (hist : List RawEntry) (inv : List Row) :
    (isMalformed v = true → safe_float v = 0) ∧
    (isMalformed r.quantity = true → (normalizeEntry r).quantity = 0) ∧
    (isMalformed r.total_cost = true → (normalizeEntry r).total_cost = 0) ∧
    recalculate_inventory_raw hist inv = recalculate_inventory (hist.map normalizeEntry) inv := by
  have key : ∀ w : PyValue, isMalformed w = true → safe_float w = 0 := by
    intro w hw
    match w with
    | .na => rfl
    | .num q => simp [isMalformed] at hw
    | .str s =>
      by_cases hs : s = ""
      · simp [safe_float, hs]
      · simp only [isMalformed, decide_eq_true_eq, Bool.or_eq_true, Option.isNone_iff_eq_none] at hw
        rcases hw with hw | hw
        · exact absurd hw hs
        · simp [safe_float, hs, hw]
  exact ⟨key v, key r.quantity, key r.total_cost, rfl⟩

/-- C9 witness: the raw row `rawBad` (quantity "abc", missing cost) is
coerced to zeros and the raw reducer agrees with the coerced reducer. -/
theorem C9_safe_parse_witness :
    safe_float (PyValue.str "abc") = 0 ∧
    (normalizeEntry rawBad).quantity = 0 ∧
    (normalizeEntry rawBad).total_cost = 0 ∧
    recalculate_inventory_raw [rawBad] [] = recalculate_inventory ([rawBad].map normalizeEntry) [] := by
  have h := C9_safe_parse (PyValue.str "abc") rawBad [rawBad] []
  exact ⟨h.1 (by decide), h.2.1 (by decide), h.2.2.1 (by decide), h.2.2.2⟩

end InventoryApp
